import Mathlib

set_option maxRecDepth 1000000

/-!
Shallow embedding of the AlphaGate client (signal-driven order-execution
gateway) for verification of its specification.

Python floats are modelled as rationals (ℚ); byte strings as `List ℕ`
with every element a byte value; fallible Python code returns `Except`.
The remote exchange (ccxt) and the JSON parser are external collaborators:
their responses are passed in as explicit oracle arguments, while every
decision the repository's own code makes is translated from the source.
-/

deriving instance DecidableEq for Except

namespace AlphaGate

/-! ## Bytes, hex and SHA-256 (model of hashlib/hmac as used by security.py) -/

/-- 2^32, the modulus of 32-bit words. -/
def M32 : ℕ := 4294967296

/-- Addition modulo 2^32. -/
def add32 (a b : ℕ) : ℕ := (a + b) % M32

/-- Bitwise complement within 32 bits. -/
def not32 (a : ℕ) : ℕ := Nat.xor a (M32 - 1)

/-- Right rotation of a 32-bit word by k bits. -/
def rotr32 (k a : ℕ) : ℕ := Nat.lor (a >>> k) ((a <<< (32 - k)) % M32)

def bigSigma0 (x : ℕ) : ℕ := Nat.xor (rotr32 2 x) (Nat.xor (rotr32 13 x) (rotr32 22 x))

def bigSigma1 (x : ℕ) : ℕ := Nat.xor (rotr32 6 x) (Nat.xor (rotr32 11 x) (rotr32 25 x))

def smallSigma0 (x : ℕ) : ℕ := Nat.xor (rotr32 7 x) (Nat.xor (rotr32 18 x) (x >>> 3))

def smallSigma1 (x : ℕ) : ℕ := Nat.xor (rotr32 17 x) (Nat.xor (rotr32 19 x) (x >>> 10))

def chOf (x y z : ℕ) : ℕ := Nat.xor (Nat.land x y) (Nat.land (not32 x) z)

def majOf (x y z : ℕ) : ℕ :=
  Nat.xor (Nat.land x y) (Nat.xor (Nat.land x z) (Nat.land y z))

/-- The 64 SHA-256 round constants. -/
def K256 : List ℕ :=
  [1116352408, 1899447441, 3049323471, 3921009573,
   961987163, 1508970993, 2453635748, 2870763221,
   3624381080, 310598401, 607225278, 1426881987,
   1925078388, 2162078206, 2614888103, 3248222580,
   3835390401, 4022224774, 264347078, 604807628,
   770255983, 1249150122, 1555081692, 1996064986,
   2554220882, 2821834349, 2952996808, 3210313671,
   3336571891, 3584528711, 113926993, 338241895,
   666307205, 773529912, 1294757372, 1396182291,
   1695183700, 1986661051, 2177026350, 2456956037,
   2730485921, 2820302411, 3259730800, 3345764771,
   3516065817, 3600352804, 4094571909, 275423344,
   430227734, 506948616, 659060556, 883997877,
   958139571, 1322822218, 1537002063, 1747873779,
   1955562222, 2024104815, 2227730452, 2361852424,
   2428436474, 2756734187, 3204031479, 3329325298]

/-- The eight 32-bit words of a SHA-256 hash state. -/
structure Hash8 where
  a : ℕ
  b : ℕ
  c : ℕ
  d : ℕ
  e : ℕ
  f : ℕ
  g : ℕ
  h : ℕ
  deriving DecidableEq, Repr

/-- Initial SHA-256 hash state. -/
def H256init : Hash8 :=
  ⟨1779033703, 3144134277, 1013904242, 2773480762,
   1359893119, 2600822924, 528734635, 1541459225⟩

/-- Big-endian byte decomposition of a value into n bytes. -/
def toBytesBE (n v : ℕ) : List ℕ :=
  (List.range n).map (fun i => v >>> (8 * (n - 1 - i)) % 256)

/-- Big-endian word from a list of bytes. -/
def bytesToWordBE (bs : List ℕ) : ℕ := bs.foldl (fun acc b => acc * 256 + b) 0

/-- SHA-256 padding: append 0x80, zero bytes, then the 64-bit big-endian bit length. -/
def sha256pad (msg : List ℕ) : List ℕ :=
  msg ++ [128] ++ List.replicate ((119 - msg.length % 64) % 64) 0 ++ toBytesBE 8 (8 * msg.length)

/-- The 16 initial message-schedule words of a 64-byte block. -/
def blockWords (block : List ℕ) : List ℕ :=
  (List.range 16).map (fun i => bytesToWordBE ((block.drop (4 * i)).take 4))

/-- One message-schedule extension step: append word t from words t-2, t-7, t-15, t-16. -/
def scheduleStep (w : List ℕ) : List ℕ :=
  let t := w.length
  w ++ [add32 (add32 (smallSigma1 (w.getD (t - 2) 0)) (w.getD (t - 7) 0))
              (add32 (smallSigma0 (w.getD (t - 15) 0)) (w.getD (t - 16) 0))]

/-- Full 64-word message schedule of a block. -/
def schedule (block : List ℕ) : List ℕ := scheduleStep^[48] (blockWords block)

/-- One SHA-256 compression round for a given k, w pair. -/
def compressStep (st : Hash8) (kw : ℕ × ℕ) : Hash8 :=
  let t1 := add32 st.h (add32 (bigSigma1 st.e)
    (add32 (chOf st.e st.f st.g) (add32 kw.1 kw.2)))
  let t2 := add32 (bigSigma0 st.a) (majOf st.a st.b st.c)
  ⟨add32 t1 t2, st.a, st.b, st.c, add32 st.d t1, st.e, st.f, st.g⟩

/-- Compress one 64-byte block into the running hash state. -/
def compressBlock (st : Hash8) (block : List ℕ) : Hash8 :=
  let fin := (K256.zip (schedule block)).foldl compressStep st
  ⟨add32 st.a fin.a, add32 st.b fin.b, add32 st.c fin.c, add32 st.d fin.d,
   add32 st.e fin.e, add32 st.f fin.f, add32 st.g fin.g, add32 st.h fin.h⟩

/-- Split a padded message into its 64-byte blocks. -/
def blocks64 (l : List ℕ) : List (List ℕ) :=
  (List.range (l.length / 64)).map (fun i => (l.drop (64 * i)).take 64)

/-- SHA-256 digest, as 32 bytes. -/
def sha256bytes (msg : List ℕ) : List ℕ :=
  let fin := (blocks64 (sha256pad msg)).foldl compressBlock H256init
  toBytesBE 4 fin.a ++ toBytesBE 4 fin.b ++ toBytesBE 4 fin.c ++ toBytesBE 4 fin.d ++
  toBytesBE 4 fin.e ++ toBytesBE 4 fin.f ++ toBytesBE 4 fin.g ++ toBytesBE 4 fin.h

/-- Lowercase hex character for a value below 16. -/
def hexChar (n : ℕ) : Char := if n < 10 then Char.ofNat (48 + n) else Char.ofNat (87 + n)

/-- Two lowercase hex characters of a byte. -/
def byteToHex (b : ℕ) : List Char := [hexChar (b / 16 % 16), hexChar (b % 16)]

/-- Lowercase hex string of a byte list, as produced by hexdigest. -/
def bytesToHex (bs : List ℕ) : String := String.mk (bs.flatMap byteToHex)

/-- UTF-8 encoding of one character, as byte values. -/
def utf8EncodeCharNat (c : Char) : List ℕ :=
  let n := c.toNat
  if n < 128 then [n]
  else if n < 2048 then [192 + n / 64, 128 + n % 64]
  else if n < 65536 then [224 + n / 4096, 128 + n / 64 % 64, 128 + n % 64]
  else [240 + n / 262144, 128 + n / 4096 % 64, 128 + n / 64 % 64, 128 + n % 64]

/-- UTF-8 bytes of a string (model of str.encode in Python). -/
def strBytes (s : String) : List ℕ := s.data.flatMap utf8EncodeCharNat

/-- HMAC-SHA256 (model of hmac.new(key, msg, hashlib.sha256), RFC 2104, block size 64). -/
def hmacSha256bytes (key msg : List ℕ) : List ℕ :=
  let k0 := if 64 < key.length then sha256bytes key else key
  let kpad := k0 ++ List.replicate (64 - k0.length) 0
  let ipadded := kpad.map (fun b => Nat.xor b 54)
  let opadded := kpad.map (fun b => Nat.xor b 92)
  sha256bytes (opadded ++ sha256bytes (ipadded ++ msg))

/-- Hex digest of the HMAC, as returned by .hexdigest(). -/
def hmacSha256hex (key msg : List ℕ) : String := bytesToHex (hmacSha256bytes key msg)

/-! ## Settings (config.py) -/

/-- The Settings model of config.py. Floats are rationals; the credential and
notification fields are carried for fidelity though no claim depends on them. -/
structure Settings where
  BITGET_API_KEY : String
  BITGET_SECRET_KEY : String
  BITGET_PASSPHRASE : String
  ALPHAGATE_HMAC_SECRET : String
  DRY_RUN : Bool
  DEFAULT_LEVERAGE : ℤ
  TRADE_ALLOCATION_PERCENT : ℚ
  DISCORD_WEBHOOK_URL : Option String
  TELEGRAM_BOT_TOKEN : Option String
  TELEGRAM_CHAT_ID : Option String
  SYMBOL_BLACKLIST : List String
  SYMBOL_WHITELIST : List String
  deriving DecidableEq, Repr

/-! ## Signature verification (security.py) -/

/-- True when every character of the string is ASCII. -/
def asciiOnly (s : String) : Bool := s.data.all (fun c => c.toNat < 128)

/-- Model of hmac.compare_digest on two str arguments: constant-time equality,
but raises TypeError when either argument holds a non-ASCII character. -/
def compare_digest (a b : String) : Except Unit Bool :=
  if asciiOnly a && asciiOnly b then Except.ok (a = b) else Except.error ()

/-- verify_hmac_signature from security.py. An absent or empty signature is
falsy and returns false before any comparison; otherwise the hex HMAC-SHA256
of the payload under the shared secret is compared with compare_digest, whose
TypeError on a non-ASCII signature propagates as the error case. -/
def verify_hmac_signature (payload : List ℕ) (signature : Option String)
    (s : Settings) : Except Unit Bool :=
  match signature with
  | none => Except.ok false
  | some sig =>
    if sig = "" then Except.ok false
    else compare_digest (hmacSha256hex (strBytes s.ALPHAGATE_HMAC_SECRET) payload) sig

/-! ## Admin authentication (main.py, verify_admin_access) -/

/-- verify_admin_access from main.py: returns true (access granted) exactly
when the X-Admin-Secret header is truthy and equals the HMAC secret; the
false case models the raised 401. -/
def verify_admin_access (x_admin_secret : Option String) (s : Settings) : Bool :=
  match x_admin_secret with
  | none => false
  | some h => if h = "" then false else h = s.ALPHAGATE_HMAC_SECRET

/-! ## Exchange oracle and observable events (trader.py) -/

/-- The Python exception classes distinguished by trader.py's except clauses.
ccxt's ExchangeNotAvailable and RequestTimeout are subclasses of NetworkError,
and InsufficientFunds of ExchangeError; the flat type carries the most specific
class, which is what the isinstance dispatch in the source distinguishes. -/
inductive PyErr
  | networkError
  | exchangeNotAvailable
  | requestTimeout
  | insufficientFunds
  | exchangeError
  | valueError
  | otherError
  deriving DecidableEq, Repr

/-- The retry predicate of the tenacity decorator on place_order:
retry_if_exception_type((ccxt.NetworkError, ccxt.ExchangeNotAvailable,
ccxt.RequestTimeout)). -/
def isTransient : PyErr → Bool
  | PyErr.networkError => true
  | PyErr.exchangeNotAvailable => true
  | PyErr.requestTimeout => true
  | _ => false

/-- Observable side effects of the pipeline: venue I/O calls, notifications
(with their level and an identifying tag for the message site), and writes
to the trading gate. -/
inductive Event
  | notify (level : String) (tag : String)
  | setLeverage (symbol : String)
  | fetchTicker (symbol : String)
  | fetchBalance
  | createMarketOrder (symbol : String) (side : String) (amount : ℚ)
      (takeProfitPrice stopLossPrice : Option ℚ) (reduceOnly : Bool)
  | cancelAllOrders
  | fetchPositions
  | gateSet (enabled : Bool)
  deriving DecidableEq, Repr

/-- True for venue I/O events (calls that reach the exchange). -/
def isVenueIO : Event → Bool
  | Event.setLeverage _ => true
  | Event.fetchTicker _ => true
  | Event.fetchBalance => true
  | Event.createMarketOrder _ _ _ _ _ _ => true
  | Event.cancelAllOrders => true
  | Event.fetchPositions => true
  | _ => false

/-- Amounts of the market orders submitted in an event trace. -/
def orderAmounts (evs : List Event) : List ℚ :=
  evs.filterMap (fun e => match e with
    | Event.createMarketOrder _ _ q _ _ _ => some q
    | _ => none)

/-- Python truthiness of an optional float: an absent value and 0 are falsy.
Used where the source writes if tp: / if sl: / if timestamp and ... -/
def truthy (x : Option ℚ) : Bool :=
  match x with
  | none => false
  | some v => v ≠ 0

/-- Number of notifications at a given level in an event trace. -/
def notifyCount (level : String) (evs : List Event) : ℕ :=
  (evs.filter (fun e => match e with
    | Event.notify l _ => l = level
    | _ => false)).length

/-- Oracle describing what one round of exchange calls would return:
client construction, set_leverage, fetch_ticker (the value of ticker['last'],
None modelling an absent price), fetch_balance (balance['USDT']['free']) and
create_market_order (the order id). -/
structure ExchangeBehavior where
  construct : Except PyErr Unit
  setLeverage : Except PyErr Unit
  fetchTicker : Except PyErr (Option ℚ)
  fetchBalance : Except PyErr ℚ
  createOrder : Except PyErr String
  deriving Repr

/-- An order dict as returned by place_order (only the id is modelled). -/
structure OrderRes where
  id : String
  deriving DecidableEq, Repr

/-! ## place_order (trader.py) -/

/-- The except-clause ladder at the end of place_order, applied to an exception
raised inside its try block: InsufficientFunds notifies at error level then
re-raises; the transient network classes only log then re-raise; ExchangeError
notifies then re-raises; any other exception notifies then re-raises. -/
def placeOrderExcept (e : PyErr) (evs : List Event) :
    Except PyErr (Option OrderRes) × List Event :=
  if e = PyErr.insufficientFunds then
    (Except.error e, evs ++ [Event.notify "error" "insufficient_funds"])
  else if isTransient e then (Except.error e, evs)
  else if e = PyErr.exchangeError then
    (Except.error e, evs ++ [Event.notify "error" "exchange_error"])
  else (Except.error e, evs ++ [Event.notify "error" "unexpected"])

/-- The body of place_order after the blacklist and whitelist checks: dry-run
short-circuit, then client construction, set_leverage (failures swallowed),
fetch_ticker with the falsy-price ValueError, fetch_balance, the sizing
formula, create_market_order and the success notification; every exception
flows to the except ladder. -/
def place_order_admitted (symbol side : String) (s : Settings) (tp sl : Option ℚ)
    (ex : ExchangeBehavior) : Except PyErr (Option OrderRes) × List Event :=
  if s.DRY_RUN then (Except.ok (some ⟨"dry-run-id"⟩), [])
  else
    match ex.construct with
    | Except.error e => placeOrderExcept e []
    | Except.ok () =>
      let evs0 := [Event.setLeverage symbol]
      match ex.fetchTicker with
      | Except.error e => placeOrderExcept e (evs0 ++ [Event.fetchTicker symbol])
      | Except.ok last =>
        let evs1 := evs0 ++ [Event.fetchTicker symbol]
        match last with
        | none => placeOrderExcept PyErr.valueError evs1
        | some current_price =>
          if current_price = 0 then placeOrderExcept PyErr.valueError evs1
          else
            match ex.fetchBalance with
            | Except.error e => placeOrderExcept e (evs1 ++ [Event.fetchBalance])
            | Except.ok usdt_free =>
              let margin_to_use := usdt_free * s.TRADE_ALLOCATION_PERCENT
              let position_size_usd := margin_to_use * (s.DEFAULT_LEVERAGE : ℚ)
              let amount := position_size_usd / current_price
              let evs2 := evs1 ++ [Event.fetchBalance,
                Event.createMarketOrder symbol side amount
                  (if truthy tp then tp else none) (if truthy sl then sl else none) false]
              match ex.createOrder with
              | Except.error e => placeOrderExcept e evs2
              | Except.ok oid =>
                (Except.ok (some ⟨oid⟩), evs2 ++ [Event.notify "success" "trade_executed"])

/-- One attempt of place_order: the strategic filtering (blacklist, then
whitelist when non-empty) returns None with an info-level notification and no
venue I/O; an admitted symbol proceeds to the admitted body. -/
def place_order_attempt (symbol side : String) (s : Settings) (tp sl : Option ℚ)
    (ex : ExchangeBehavior) : Except PyErr (Option OrderRes) × List Event :=
  if symbol ∈ s.SYMBOL_BLACKLIST then
    (Except.ok none, [Event.notify "info" "ignored_blacklist"])
  else if s.SYMBOL_WHITELIST ≠ [] ∧ symbol ∉ s.SYMBOL_WHITELIST then
    (Except.ok none, [Event.notify "info" "ignored_whitelist"])
  else place_order_admitted symbol side s tp sl ex

/-- tenacity wait_exponential(multiplier, min, max) consulted after a failed
attempt: an exponential of base 2 scaled by the multiplier, clamped between
min and max (modelled from the tenacity documentation). -/
def wait_exponential (multiplier mn mx : ℚ) (attemptNumber : ℕ) : ℚ :=
  max (max 0 mn) (min (multiplier * 2 ^ (attemptNumber - 1)) mx)

/-- Outcome of the retry-wrapped place_order: a returned value, a propagated
non-retried exception, or tenacity's RetryError after the stop condition. -/
inductive RetryOutcome
  | ok (r : Option OrderRes)
  | err (e : PyErr)
  | retryError (last : PyErr)
  deriving DecidableEq, Repr

/-- A complete run of the retry-wrapped place_order: final outcome, the
concatenated event trace of every attempt, the sleeps performed between
attempts, and the number of attempts made. -/
structure RetryRun where
  result : RetryOutcome
  events : List Event
  delays : List ℚ
  attempts : ℕ
  deriving DecidableEq, Repr

/-- The tenacity retry loop with stop_after_attempt(3),
wait_exponential(multiplier=1, min=1, max=10) and the transient retry
predicate. fuel bounds the recursion; it never runs out when started at 3
because the stop condition fires at attempt 3. -/
def retryGo (symbol side : String) (s : Settings) (tp sl : Option ℚ)
    (ex : ℕ → ExchangeBehavior) : ℕ → ℕ → List Event → List ℚ → RetryRun
  | 0, n, evs, ds => ⟨RetryOutcome.retryError PyErr.otherError, evs, ds, n - 1⟩
  | fuel + 1, n, evs, ds =>
    match place_order_attempt symbol side s tp sl (ex n) with
    | (Except.ok v, e) => ⟨RetryOutcome.ok v, evs ++ e, ds, n⟩
    | (Except.error err, e) =>
      if isTransient err then
        if 3 ≤ n then ⟨RetryOutcome.retryError err, evs ++ e, ds, n⟩
        else retryGo symbol side s tp sl ex fuel (n + 1) (evs ++ e)
          (ds ++ [wait_exponential 1 1 10 n])
      else ⟨RetryOutcome.err err, evs ++ e, ds, n⟩

/-- place_order as decorated by tenacity: up to 3 attempts, each drawing its
exchange responses from the oracle at its attempt number. -/
def place_order (symbol side : String) (s : Settings) (tp sl : Option ℚ)
    (ex : ℕ → ExchangeBehavior) : RetryRun :=
  retryGo symbol side s tp sl ex 3 1 [] []

/-! ## Webhook endpoint (main.py) -/

/-- The fields the webhook handler reads out of the parsed JSON body:
dust is the truthiness of data.get("dust"); timestamp, tp and sl are optional
numbers; symbol and side are the required string fields. -/
structure SignalData where
  dust : Bool
  timestamp : Option ℚ
  symbol : Option String
  side : Option String
  tp : Option ℚ
  sl : Option ℚ
  deriving DecidableEq, Repr

/-- The distinguishable HTTP responses of the webhook handler. -/
inductive WebhookResponse
  | ignored
  | emptyOk
  | okStatus
  | badRequest
  | serverError
  deriving DecidableEq, Repr

/-- Step 3 of the webhook handler: read the required fields (a missing one
raises KeyError, answered 400), run place_order in the threadpool, answer ok
on a returned value and 500 on any exception. -/
def webhook_trading (d : SignalData) (s : Settings) (ex : ℕ → ExchangeBehavior) :
    WebhookResponse × List Event :=
  match d.symbol, d.side with
  | some sym, some sd =>
    let run := place_order sym sd s d.tp d.sl ex
    match run.result with
    | RetryOutcome.ok _ => (WebhookResponse.okStatus, run.events)
    | _ => (WebhookResponse.serverError, run.events)
  | _, _ => (WebhookResponse.badRequest, [])

/-- The webhook handler of main.py. The trading gate is consulted first; then
the signature is verified on the raw body (a TypeError escaping the verifier
surfaces as a 500); then the body is parsed (the json.loads result is the
parsed oracle argument), the dust heartbeat short-circuits, the freshness
check fires only for a truthy timestamp older than 60 seconds, and the signal
is traded. -/
def webhook (trading_enabled : Bool) (body : List ℕ) (x_hub_signature : Option String)
    (s : Settings) (now : ℚ) (parsed : Option SignalData) (ex : ℕ → ExchangeBehavior) :
    WebhookResponse × List Event :=
  if trading_enabled = false then (WebhookResponse.ignored, [])
  else
    match verify_hmac_signature body x_hub_signature s with
    | Except.error () => (WebhookResponse.serverError, [])
    | Except.ok false => (WebhookResponse.emptyOk, [])
    | Except.ok true =>
      match parsed with
      | none => (WebhookResponse.emptyOk, [])
      | some d =>
        if d.dust then (WebhookResponse.okStatus, [])
        else if truthy d.timestamp ∧ now - d.timestamp.getD 0 > 60 then
          (WebhookResponse.emptyOk, [])
        else webhook_trading d s ex

/-! ## Kill switch (trader.py emergency_kill_switch, main.py execute_kill_switch) -/

/-- A position as read from fetch_positions (only the fields the kill switch
uses). -/
structure Position where
  symbol : String
  side : String
  contracts : ℚ
  deriving DecidableEq, Repr

/-- Oracle for the exchange calls of the kill switch: client construction,
cancel_all_orders, fetch_positions, and the close order per symbol. -/
structure KillExchange where
  construct : Except PyErr Unit
  cancelAll : Except PyErr Unit
  fetchPositions : Except PyErr (List Position)
  closeOrder : String → Except PyErr Unit

/-- Entries of the kill-switch result log, tagged by their message site. -/
inductive LogEntry
  | cancelOk
  | cancelFail
  | noPositions
  | closeOk (symbol : String)
  | closeFail (symbol : String)
  deriving DecidableEq, Repr

/-- The per-position closing loop: each active position gets a reduce-only
market order in the opposite direction, and a per-symbol log entry whichever
way the order call goes. -/
def closeLoop (kx : KillExchange) : List Position → List LogEntry × List Event
  | [] => ([], [])
  | p :: rest =>
    let side := if p.side = "long" then "sell" else "buy"
    let ev := Event.createMarketOrder p.symbol side p.contracts none none true
    let entry := match kx.closeOrder p.symbol with
      | Except.ok () => LogEntry.closeOk p.symbol
      | Except.error _ => LogEntry.closeFail p.symbol
    let rest' := closeLoop kx rest
    (entry :: rest'.1, ev :: rest'.2)

/-- emergency_kill_switch from trader.py: construct the client, cancel all
orders inside its own try (failure only logged), fetch positions (not guarded
by an inner try: a failure flows to the outer except, notifies and re-raises),
close every active position fault-tolerantly, then emit the aggregate
notification and return the log. -/
def emergency_kill_switch (_s : Settings) (kx : KillExchange) :
    Except PyErr (List LogEntry) × List Event :=
  match kx.construct with
  | Except.error e => (Except.error e, [Event.notify "error" "kill_failed"])
  | Except.ok () =>
    let cancelLog := match kx.cancelAll with
      | Except.ok () => LogEntry.cancelOk
      | Except.error _ => LogEntry.cancelFail
    match kx.fetchPositions with
    | Except.error e =>
      (Except.error e,
        [Event.cancelAllOrders, Event.fetchPositions, Event.notify "error" "kill_failed"])
    | Except.ok ps =>
      let active := ps.filter (fun p => 0 < p.contracts)
      let headLog := if active = [] then [cancelLog, LogEntry.noPositions] else [cancelLog]
      let closed := closeLoop kx active
      (Except.ok (headLog ++ closed.1),
        [Event.cancelAllOrders, Event.fetchPositions] ++ closed.2 ++
          [Event.notify "error" "kill_summary"])

/-- The response of the /kill endpoint body: the gate value it leaves behind,
the result of the venue sweep, and the ordered trace of its effects. -/
structure KillResponse where
  gate : Bool
  result : Except PyErr (List LogEntry)
  events : List Event
  deriving Repr

/-- execute_kill_switch from main.py: TRADING_ENABLED is set to False first,
unconditionally, and only then is emergency_kill_switch run; an exception
from the sweep propagates but the gate write has already happened. -/
def execute_kill_switch (s : Settings) (kx : KillExchange) : KillResponse :=
  let r := emergency_kill_switch s kx
  ⟨false, r.1, Event.gateSet false :: r.2⟩

/-- resume_trading from main.py: sets the gate back to enabled, no venue I/O. -/
def resume_trading : Bool := true

/-! ## Admin-guarded endpoints (main.py) -/

/-- Outcome of an admin-guarded endpoint: 401 or the handler result. -/
inductive AdminOutcome (α : Type)
  | unauthorized
  | ok (a : α)
  deriving DecidableEq, Repr

/-- The /kill endpoint with its verify_admin_access dependency. -/
def kill_endpoint (header : Option String) (s : Settings) (kx : KillExchange) :
    AdminOutcome KillResponse :=
  if verify_admin_access header s then AdminOutcome.ok (execute_kill_switch s kx)
  else AdminOutcome.unauthorized

/-- The /resume endpoint with its verify_admin_access dependency. -/
def resume_endpoint (header : Option String) (s : Settings) : AdminOutcome Bool :=
  if verify_admin_access header s then AdminOutcome.ok resume_trading
  else AdminOutcome.unauthorized

/-- The /status endpoint guard (the handler body is venue reporting only). -/
def status_endpoint (header : Option String) (s : Settings) : AdminOutcome Unit :=
  if verify_admin_access header s then AdminOutcome.ok () else AdminOutcome.unauthorized

/-- The /report endpoint guard (the handler body is venue reporting only). -/
def report_endpoint (header : Option String) (s : Settings) (days : ℕ) :
    AdminOutcome ℕ :=
  if verify_admin_access header s then AdminOutcome.ok days else AdminOutcome.unauthorized

/-! ## Reference predicate from the specification (for the refinement claim on
symbol admission) and concrete inputs used by witnesses and counterexamples -/

/-- Admission rule exactly as the specification words it: reject if the symbol
is blacklisted; else, if the whitelist is non-empty, admit only a whitelisted
symbol; an empty whitelist admits unconditionally. To be compared with the
short-circuiting checks of place_order. -/
def admitSpec (symbol : String) (s : Settings) : Bool :=
  if symbol ∈ s.SYMBOL_BLACKLIST then false
  else if s.SYMBOL_WHITELIST ≠ [] then symbol ∈ s.SYMBOL_WHITELIST
  else true

/-- Concrete settings used by witnesses: live trading, leverage 10, 5 percent
allocation, no symbol lists. -/
def egSettings : Settings :=
  ⟨"test", "test", "test", "test-secret", false, 10, 1/20, none, none, none, [], []⟩

/-- Concrete settings with a blacklist and a whitelist. -/
def egSettingsFiltered : Settings :=
  ⟨"test", "test", "test", "test-secret", false, 10, 1/20, none, none, none,
    ["DOGE/USDT"], ["BTC/USDT"]⟩

/-- A healthy exchange oracle: price 50000, free balance 1000, orders accepted. -/
def egEx : ℕ → ExchangeBehavior :=
  fun _ => ⟨Except.ok (), Except.ok (), Except.ok (some 50000), Except.ok 1000,
    Except.ok "123"⟩

/-- An exchange oracle whose order placement fails with InsufficientFunds. -/
def egExPoor : ℕ → ExchangeBehavior :=
  fun _ => ⟨Except.ok (), Except.ok (), Except.ok (some 50000), Except.ok 1000,
    Except.error PyErr.insufficientFunds⟩

/-- An exchange oracle that times out on every call. -/
def egExDown : ℕ → ExchangeBehavior :=
  fun _ => ⟨Except.ok (), Except.ok (), Except.error PyErr.requestTimeout,
    Except.error PyErr.requestTimeout, Except.error PyErr.requestTimeout⟩

/-- An exchange oracle with a zero free balance. -/
def egExBroke : ℕ → ExchangeBehavior :=
  fun _ => ⟨Except.ok (), Except.ok (), Except.ok (some 50000), Except.ok 0,
    Except.ok "123"⟩

/-- The raw JSON body of a stale signal whose timestamp is 0, with the parse
the webhook's json.loads would produce for it. -/
def egBody : List ℕ :=
  strBytes "\x7b\"timestamp\": 0, \"symbol\": \"BTC/USDT\", \"side\": \"buy\"\x7d"

/-- The parsed form of egBody. -/
def egParsed : SignalData := ⟨false, some 0, some "BTC/USDT", some "buy", none, none⟩

/-- A kill-switch oracle with one open long position that closes cleanly. -/
def egKx : KillExchange :=
  ⟨Except.ok (), Except.ok (), Except.ok [⟨"ETH/USDT", "long", 2⟩], fun _ => Except.ok ()⟩

/-- A kill-switch oracle whose fetch_positions call fails. -/
def egKxFetchFail : KillExchange :=
  ⟨Except.ok (), Except.ok (), Except.error PyErr.networkError, fun _ => Except.ok ()⟩

/-- A kill-switch oracle where cancellation and one of the two closes fail. -/
def egKxMessy : KillExchange :=
  ⟨Except.ok (), Except.error PyErr.networkError,
    Except.ok [⟨"ETH/USDT", "long", 2⟩, ⟨"BTC/USDT", "short", 1⟩],
    fun sym => if sym = "ETH/USDT" then Except.error PyErr.exchangeError else Except.ok ()⟩

/-- An exchange oracle whose ticker has no last price. -/
def egExNoPrice : ExchangeBehavior :=
  ⟨Except.ok (), Except.ok (), Except.ok none, Except.ok 1000, Except.ok "123"⟩

/-- The raw JSON body of a signal with timestamp 30, with its parse. -/
def egBodyStale : List ℕ :=
  strBytes "\x7b\"timestamp\": 30, \"symbol\": \"BTC/USDT\", \"side\": \"buy\"\x7d"

def egParsedStale : SignalData := ⟨false, some 30, some "BTC/USDT", some "buy", none, none⟩


/-! ## Helper lemmas: the hex digest is ASCII and non-empty; characterization
of the signature verifier -/

theorem hexChar_toNat_lt (n : ℕ) (h : n < 16) : (hexChar n).toNat < 128 := by
  interval_cases n <;> decide

theorem asciiOnly_bytesToHex (bs : List ℕ) : asciiOnly (bytesToHex bs) = true := by
  rw [asciiOnly]
  rw [show (bytesToHex bs).data = bs.flatMap byteToHex from rfl]
  rw [List.all_eq_true]
  intro c hc
  rw [List.mem_flatMap] at hc
  obtain ⟨b, _, hcb⟩ := hc
  rw [byteToHex, List.mem_cons, List.mem_cons] at hcb
  have h16a : b / 16 % 16 < 16 := Nat.mod_lt _ (by norm_num)
  have h16b : b % 16 < 16 := Nat.mod_lt _ (by norm_num)
  rcases hcb with h | h | h
  · subst h; exact decide_eq_true (hexChar_toNat_lt _ h16a)
  · subst h; exact decide_eq_true (hexChar_toNat_lt _ h16b)
  · simp at h

theorem length_sha256bytes (m : List ℕ) : (sha256bytes m).length = 32 := by
  simp [sha256bytes, toBytesBE]

theorem length_flatMap_byteToHex : ∀ bs : List ℕ, (bs.flatMap byteToHex).length = 2 * bs.length
  | [] => rfl
  | b :: t => by
    rw [List.flatMap_cons, List.length_append, length_flatMap_byteToHex t]
    simp [byteToHex]
    ring

theorem hmacSha256hex_ne_empty (key msg : List ℕ) : hmacSha256hex key msg ≠ "" := by
  intro h
  have hlen : (hmacSha256hex key msg).length = 0 := by rw [h]; rfl
  have hdata : (hmacSha256hex key msg).length
      = ((hmacSha256bytes key msg).flatMap byteToHex).length := rfl
  have h32 : (hmacSha256bytes key msg).length = 32 := length_sha256bytes _
  rw [hdata, length_flatMap_byteToHex, h32] at hlen
  norm_num at hlen

theorem verify_ok_true_iff (payload : List ℕ) (sig : Option String) (s : Settings) :
    verify_hmac_signature payload sig s = Except.ok true ↔
      sig = some (hmacSha256hex (strBytes s.ALPHAGATE_HMAC_SECRET) payload) := by
  have hne : hmacSha256hex (strBytes s.ALPHAGATE_HMAC_SECRET) payload ≠ "" :=
    hmacSha256hex_ne_empty _ _
  have ha : asciiOnly (hmacSha256hex (strBytes s.ALPHAGATE_HMAC_SECRET) payload) = true :=
    asciiOnly_bytesToHex _
  cases sig with
  | none => simp [verify_hmac_signature]
  | some t =>
    rw [verify_hmac_signature]
    by_cases h0 : t = ""
    · subst h0
      simp only [if_pos rfl, Option.some.injEq]
      constructor
      · intro h; exact absurd h (by simp)
      · intro h; exact absurd h.symm hne
    · rw [if_neg h0, compare_digest, ha, Bool.true_and]
      cases hb : asciiOnly t with
      | true =>
        simp only [if_pos rfl, Option.some.injEq]
        constructor
        · intro h
          exact (decide_eq_true_iff.mp (Except.ok.inj h)).symm
        · intro h; subst h; simp
      | false =>
        simp only [Bool.false_eq_true, if_false, Option.some.injEq]
        constructor
        · intro h; exact absurd h (by simp)
        · intro h
          rw [h, ha] at hb
          exact absurd hb (by simp)

theorem verify_error_iff (payload : List ℕ) (sig : Option String) (s : Settings) :
    verify_hmac_signature payload sig s = Except.error () ↔
      ∃ t, sig = some t ∧ t ≠ "" ∧ asciiOnly t = false := by
  have ha : asciiOnly (hmacSha256hex (strBytes s.ALPHAGATE_HMAC_SECRET) payload) = true :=
    asciiOnly_bytesToHex _
  cases sig with
  | none => simp [verify_hmac_signature]
  | some t =>
    rw [verify_hmac_signature]
    by_cases h0 : t = ""
    · subst h0; simp
    · rw [if_neg h0, compare_digest, ha, Bool.true_and]
      cases hb : asciiOnly t with
      | true =>
        simp only [if_pos rfl]
        constructor
        · intro h; exact absurd h (by simp)
        · rintro ⟨u, hu, _, hfalse⟩
          rw [Option.some.inj hu] at hb
          rw [hb] at hfalse
          exact absurd hfalse (by simp)
      | false =>
        simp only [Bool.false_eq_true, if_false]
        constructor
        · intro _; exact ⟨t, rfl, h0, hb⟩
        · intro _; trivial

/-! ## Claim C6 and C10 theorems -/

/-- C6: signature verification is total only on ASCII signatures. Corrected:
for an absent, empty, malformed-hex or mismatched ASCII signature the verifier
returns false without throwing, and it returns true exactly when the signature
equals the hex HMAC-SHA256 of the raw bytes under the shared secret; but a
non-ASCII signature makes hmac.compare_digest raise a TypeError, so the
verifier is not total on all inputs (see the counterexample). -/
theorem C6_signature_verification_total (payload : List ℕ) (sig : Option String) (s : Settings) :
    (verify_hmac_signature payload sig s = Except.ok true ↔
      sig = some (hmacSha256hex (strBytes s.ALPHAGATE_HMAC_SECRET) payload)) ∧
    (verify_hmac_signature payload sig s = Except.error () ↔
      ∃ t, sig = some t ∧ t ≠ "" ∧ asciiOnly t = false) :=
  ⟨verify_ok_true_iff payload sig s, verify_error_iff payload sig s⟩

/-- Counterexample to C6 as stated: a non-ASCII provided signature makes
verify_hmac_signature raise (TypeError from hmac.compare_digest) instead of
returning false. -/
theorem C6_counterexample :
    verify_hmac_signature (strBytes "body") (some "é-signature") egSettings =
      Except.error () := by decide

/-- Witness for C6: a correctly signed payload verifies as true. -/
theorem C6_witness :
    verify_hmac_signature (strBytes "body")
      (some (hmacSha256hex (strBytes "test-secret") (strBytes "body"))) egSettings =
      Except.ok true :=
  (C6_signature_verification_total (strBytes "body") _ egSettings).1.mpr rfl

/-- C10: every admin endpoint is guarded by verify_admin_access, which grants
access exactly when the X-Admin-Secret header is present, non-empty and equal
to ALPHAGATE_HMAC_SECRET — the very secret that keys the webhook HMAC (the
last conjunct: a signature forged with that secret always verifies), so
knowledge of the webhook signing secret grants kill and resume control. -/
theorem C10_admin_same_secret (s : Settings) (h : Option String) (kx : KillExchange)
    (days : ℕ) :
    (verify_admin_access h s = true ↔
      h = some s.ALPHAGATE_HMAC_SECRET ∧ s.ALPHAGATE_HMAC_SECRET ≠ "") ∧
    (status_endpoint h s = AdminOutcome.unauthorized ↔ verify_admin_access h s = false) ∧
    (report_endpoint h s days = AdminOutcome.unauthorized ↔ verify_admin_access h s = false) ∧
    (kill_endpoint h s kx = AdminOutcome.unauthorized ↔ verify_admin_access h s = false) ∧
    (resume_endpoint h s = AdminOutcome.unauthorized ↔ verify_admin_access h s = false) ∧
    (∀ p : List ℕ,
      verify_hmac_signature p (some (hmacSha256hex (strBytes s.ALPHAGATE_HMAC_SECRET) p)) s =
        Except.ok true) := by
  refine ⟨?_, ?_, ?_, ?_, ?_, fun p => (verify_ok_true_iff p _ s).mpr rfl⟩
  · cases h with
    | none => simp [verify_admin_access]
    | some v =>
      rw [verify_admin_access]
      by_cases hv : v = ""
      · subst hv
        simp only [if_pos rfl, Option.some.injEq]
        constructor
        · intro hfalse; exact absurd hfalse (by simp)
        · rintro ⟨h1, h2⟩; exact absurd h1.symm h2
      · rw [if_neg hv]
        simp only [Option.some.injEq, decide_eq_true_iff]
        constructor
        · intro heq; exact ⟨heq, heq ▸ hv⟩
        · rintro ⟨h1, _⟩; exact h1
  · rw [status_endpoint]; cases hva : verify_admin_access h s <;> simp [hva]
  · rw [report_endpoint]; cases hva : verify_admin_access h s <;> simp [hva]
  · rw [kill_endpoint]; cases hva : verify_admin_access h s <;> simp [hva]
  · rw [resume_endpoint]; cases hva : verify_admin_access h s <;> simp [hva]

/-- Witness for C10: the shared secret opens the admin surface and a wrong
secret is answered 401. -/
theorem C10_witness :
    verify_admin_access (some "test-secret") egSettings = true ∧
    resume_endpoint (some "wrong") egSettings = AdminOutcome.unauthorized :=
  ⟨(C10_admin_same_secret egSettings (some "test-secret") egKx 7).1.mpr ⟨rfl, by decide⟩,
   (C10_admin_same_secret egSettings (some "wrong") egKx 7).2.2.2.2.1.mpr (by decide)⟩

/-! ## Claim C2, C8 and C9 theorems (sizing and symbol admission) -/

theorem orderAmounts_append (l1 l2 : List Event) :
    orderAmounts (l1 ++ l2) = orderAmounts l1 ++ orderAmounts l2 := by
  simp [orderAmounts, List.filterMap_append]

theorem orderAmounts_placeOrderExcept (e : PyErr) (evs : List Event) :
    orderAmounts (placeOrderExcept e evs).2 = orderAmounts evs := by
  rw [placeOrderExcept]
  split_ifs <;> simp [orderAmounts_append, orderAmounts]

theorem placeOrderExcept_fst (e : PyErr) (evs : List Event) :
    (placeOrderExcept e evs).1 = Except.error e := by
  rw [placeOrderExcept]
  split_ifs <;> rfl

/-- C2: for every admitted non-dry-run signal with a fetched nonzero price and
balance, the single order submitted carries quantity
free_balance_usdt * trade_allocation_percent * default_leverage / current_price;
determinism in the four inputs is inherent in the function. -/
theorem C2_sizing_formula (s : Settings) (symbol side : String) (tp sl : Option ℚ)
    (ex : ExchangeBehavior) (price free : ℚ)
    (hdry : s.DRY_RUN = false)
    (hbl : symbol ∉ s.SYMBOL_BLACKLIST)
    (hwl : s.SYMBOL_WHITELIST = [] ∨ symbol ∈ s.SYMBOL_WHITELIST)
    (hc : ex.construct = Except.ok ())
    (ht : ex.fetchTicker = Except.ok (some price))
    (hp : price ≠ 0)
    (hb : ex.fetchBalance = Except.ok free) :
    orderAmounts (place_order_attempt symbol side s tp sl ex).2 =
      [free * s.TRADE_ALLOCATION_PERCENT * (s.DEFAULT_LEVERAGE : ℚ) / price] := by
  have hwl' : ¬(s.SYMBOL_WHITELIST ≠ [] ∧ symbol ∉ s.SYMBOL_WHITELIST) := by
    rcases hwl with h | h <;> simp [h]
  rw [place_order_attempt, if_neg hbl, if_neg hwl']
  rw [place_order_admitted, hdry]
  simp only [Bool.false_eq_true, if_false]
  rw [hc, ht]
  simp only [if_neg hp]
  rw [hb]
  rcases hco : ex.createOrder with e | oid
  · simp only [hco, orderAmounts_placeOrderExcept]
    simp [orderAmounts]
  · simp only [hco]
    simp [orderAmounts]

/-- Witness for C2: with balance 1000, allocation 0.05, leverage 10 and price
50000 the computed quantity is exactly 0.01. -/
theorem C2_witness :
    orderAmounts (place_order_attempt "BTC/USDT" "buy" egSettings none none (egEx 1)).2 =
      [1/100] := by
  have h := C2_sizing_formula egSettings "BTC/USDT" "buy" none none (egEx 1) 50000 1000
    rfl (by simp [egSettings]) (Or.inl rfl) rfl rfl (by norm_num) rfl
  rw [h]
  norm_num [egSettings]

/-- C8: place_order refines the admission rule of the specification: a
non-admitted symbol (blacklisted, or absent from a non-empty whitelist) yields
the no-op None result with exactly one info-level notification and no venue
I/O (so sizing and order submission are never invoked), while an admitted
symbol proceeds to the post-filter body. -/
theorem C8_symbol_admission (s : Settings) (symbol side : String) (tp sl : Option ℚ)
    (ex : ExchangeBehavior) :
    (admitSpec symbol s = false →
      (place_order_attempt symbol side s tp sl ex).1 = Except.ok none ∧
      notifyCount "info" (place_order_attempt symbol side s tp sl ex).2 = 1 ∧
      orderAmounts (place_order_attempt symbol side s tp sl ex).2 = [] ∧
      ∀ e ∈ (place_order_attempt symbol side s tp sl ex).2, isVenueIO e = false) ∧
    (admitSpec symbol s = true →
      place_order_attempt symbol side s tp sl ex =
        place_order_admitted symbol side s tp sl ex) := by
  by_cases h1 : symbol ∈ s.SYMBOL_BLACKLIST
  · constructor
    · intro _
      rw [place_order_attempt, if_pos h1]
      refine ⟨rfl, by simp [notifyCount], by simp [orderAmounts], ?_⟩
      intro e he
      simp only [List.mem_singleton] at he
      subst he
      rfl
    · intro hadmit
      rw [admitSpec, if_pos h1] at hadmit
      exact absurd hadmit (by simp)
  · by_cases h2 : s.SYMBOL_WHITELIST ≠ [] ∧ symbol ∉ s.SYMBOL_WHITELIST
    · constructor
      · intro _
        rw [place_order_attempt, if_neg h1, if_pos h2]
        refine ⟨rfl, by simp [notifyCount], by simp [orderAmounts], ?_⟩
        intro e he
        simp only [List.mem_singleton] at he
        subst he
        rfl
      · intro hadmit
        rw [admitSpec, if_neg h1, if_pos h2.1] at hadmit
        exact absurd (decide_eq_true_iff.mp hadmit) h2.2
    · constructor
      · intro hrej
        exfalso
        rw [admitSpec, if_neg h1] at hrej
        by_cases hw : s.SYMBOL_WHITELIST ≠ []
        · rw [if_pos hw] at hrej
          have hmem : symbol ∈ s.SYMBOL_WHITELIST := by
            by_contra hn
            exact h2 ⟨hw, hn⟩
          rw [decide_eq_false_iff_not] at hrej
          exact hrej hmem
        · rw [if_neg hw] at hrej
          exact absurd hrej (by simp)
      · intro _
        rw [place_order_attempt, if_neg h1, if_neg h2]

/-- Witness for C8: the blacklisted symbol and a non-whitelisted symbol are
both rejected as no-ops, and the whitelisted symbol is admitted. -/
theorem C8_witness :
    (place_order_attempt "DOGE/USDT" "buy" egSettingsFiltered none none (egEx 1)).1 =
      Except.ok none ∧
    (place_order_attempt "ETH/USDT" "buy" egSettingsFiltered none none (egEx 1)).1 =
      Except.ok none ∧
    place_order_attempt "BTC/USDT" "buy" egSettingsFiltered none none (egEx 1) =
      place_order_admitted "BTC/USDT" "buy" egSettingsFiltered none none (egEx 1) :=
  ⟨((C8_symbol_admission egSettingsFiltered "DOGE/USDT" "buy" none none (egEx 1)).1
      (by decide)).1,
   ((C8_symbol_admission egSettingsFiltered "ETH/USDT" "buy" none none (egEx 1)).1
      (by decide)).1,
   (C8_symbol_admission egSettingsFiltered "BTC/USDT" "buy" none none (egEx 1)).2
      (by decide)⟩

/-- C9 as amended: when the fetched price is absent or zero the attempt fails
with the ValueError execution failure and no order is submitted; but a zero
free balance is not checked — the quantity computes to 0 and a zero-quantity
order is submitted to the venue. -/
theorem C9_sizing_guard (s : Settings) (symbol side : String) (tp sl : Option ℚ)
    (ex : ExchangeBehavior) (price : ℚ)
    (hdry : s.DRY_RUN = false)
    (hbl : symbol ∉ s.SYMBOL_BLACKLIST)
    (hwl : s.SYMBOL_WHITELIST = [] ∨ symbol ∈ s.SYMBOL_WHITELIST)
    (hc : ex.construct = Except.ok ()) :
    ((ex.fetchTicker = Except.ok none ∨ ex.fetchTicker = Except.ok (some 0)) →
      (place_order_attempt symbol side s tp sl ex).1 = Except.error PyErr.valueError ∧
      orderAmounts (place_order_attempt symbol side s tp sl ex).2 = []) ∧
    (ex.fetchTicker = Except.ok (some price) → price ≠ 0 →
      ex.fetchBalance = Except.ok 0 →
      orderAmounts (place_order_attempt symbol side s tp sl ex).2 = [0]) := by
  have hwl' : ¬(s.SYMBOL_WHITELIST ≠ [] ∧ symbol ∉ s.SYMBOL_WHITELIST) := by
    rcases hwl with h | h <;> simp [h]
  constructor
  · intro hzero
    rw [place_order_attempt, if_neg hbl, if_neg hwl']
    rw [place_order_admitted, hdry]
    simp only [Bool.false_eq_true, if_false]
    rw [hc]
    rcases hzero with h | h
    · rw [h]
      exact ⟨placeOrderExcept_fst _ _, by
        rw [orderAmounts_placeOrderExcept]; simp [orderAmounts]⟩
    · rw [h]
      simp only [eq_self_iff_true, if_true]
      exact ⟨placeOrderExcept_fst _ _, by
        rw [orderAmounts_placeOrderExcept]; simp [orderAmounts]⟩
  · intro ht hp hb
    have h := C2_sizing_formula s symbol side tp sl ex price 0 hdry hbl hwl hc ht hp hb
    rw [h]
    norm_num

/-- Counterexample to C9 as stated: with a zero free balance no SizingError is
raised; the attempt succeeds and submits a market order of quantity 0 to the
venue. -/
theorem C9_counterexample :
    (place_order_attempt "BTC/USDT" "buy" egSettings none none (egExBroke 1)).1 =
      Except.ok (some ⟨"123"⟩) ∧
    orderAmounts (place_order_attempt "BTC/USDT" "buy" egSettings none none (egExBroke 1)).2 =
      [0] := by
  norm_num [place_order_attempt, place_order_admitted, egSettings, egExBroke, orderAmounts,
    List.filterMap_cons]

/-- Witness for C9: an absent price fails the attempt with ValueError and no
order is submitted. -/
theorem C9_witness :
    (place_order_attempt "BTC/USDT" "buy" egSettings none none egExNoPrice).1 =
      Except.error PyErr.valueError ∧
    orderAmounts (place_order_attempt "BTC/USDT" "buy" egSettings none none egExNoPrice).2 =
      [] :=
  (C9_sizing_guard egSettings "BTC/USDT" "buy" none none egExNoPrice 1
    rfl (by simp [egSettings]) (Or.inl rfl) rfl).1 (Or.inl rfl)

/-! ## Claim C3 theorems (retry policy) -/

theorem notifyCount_append (lvl : String) (l1 l2 : List Event) :
    notifyCount lvl (l1 ++ l2) = notifyCount lvl l1 + notifyCount lvl l2 := by
  simp [notifyCount, List.filter_append]

theorem placeOrderExcept_transient (e : PyErr) (evs : List Event)
    (ht : isTransient e = true) :
    placeOrderExcept e evs = (Except.error e, evs) := by
  have hne : e ≠ PyErr.insufficientFunds := by
    rintro rfl; simp [isTransient] at ht
  rw [placeOrderExcept, if_neg hne, if_pos ht]

theorem notifyCount_placeOrderExcept (e : PyErr) (evs : List Event)
    (ht : isTransient e = false) :
    notifyCount "error" (placeOrderExcept e evs).2 = notifyCount "error" evs + 1 := by
  rw [placeOrderExcept]
  split_ifs with hif htr
  · simp [notifyCount_append, notifyCount]
  · rw [htr] at ht; cases ht
  · simp [notifyCount_append, notifyCount]
  · simp [notifyCount_append, notifyCount]

theorem wait_exponential_bounds (k : ℕ) :
    1 ≤ wait_exponential 1 1 10 k ∧ wait_exponential 1 1 10 k ≤ 10 := by
  constructor
  · rw [wait_exponential]
    have h01 : max (0:ℚ) 1 = 1 := by norm_num
    rw [h01]
    exact le_max_left _ _
  · rw [wait_exponential]
    exact max_le (by norm_num) (min_le_right _ _)

theorem attempt_error_notifyCount (symbol side : String) (s : Settings) (tp sl : Option ℚ)
    (ex : ExchangeBehavior) (e : PyErr)
    (ht : isTransient e = false) :
    (place_order_attempt symbol side s tp sl ex).1 = Except.error e →
    notifyCount "error" (place_order_attempt symbol side s tp sl ex).2 = 1 := by
  by_cases h1 : symbol ∈ s.SYMBOL_BLACKLIST
  · rw [place_order_attempt, if_pos h1]
    intro h
    exact absurd h (by simp)
  · by_cases h2 : s.SYMBOL_WHITELIST ≠ [] ∧ symbol ∉ s.SYMBOL_WHITELIST
    · rw [place_order_attempt, if_neg h1, if_pos h2]
      intro h
      exact absurd h (by simp)
    · rw [place_order_attempt, if_neg h1, if_neg h2, place_order_admitted]
      by_cases hdry : s.DRY_RUN = true
      · rw [if_pos hdry]
        intro h
        exact absurd h (by simp)
      · rw [if_neg hdry]
        rcases hc : ex.construct with ec | u
        · show (placeOrderExcept ec []).1 = Except.error e →
            notifyCount "error" (placeOrderExcept ec []).2 = 1
          intro h
          rw [placeOrderExcept_fst] at h
          obtain rfl : ec = e := Except.error.inj h
          rw [notifyCount_placeOrderExcept _ _ ht]
          simp [notifyCount]
        · cases u
          rcases hti : ex.fetchTicker with et | last
          · show (placeOrderExcept et
                ([Event.setLeverage symbol] ++ [Event.fetchTicker symbol])).1 = Except.error e →
              notifyCount "error" (placeOrderExcept et
                ([Event.setLeverage symbol] ++ [Event.fetchTicker symbol])).2 = 1
            intro h
            rw [placeOrderExcept_fst] at h
            obtain rfl : et = e := Except.error.inj h
            rw [notifyCount_placeOrderExcept _ _ ht]
            simp [notifyCount]
          · rcases last with _ | price
            · show (placeOrderExcept PyErr.valueError
                  ([Event.setLeverage symbol] ++ [Event.fetchTicker symbol])).1 = Except.error e →
                notifyCount "error" (placeOrderExcept PyErr.valueError
                  ([Event.setLeverage symbol] ++ [Event.fetchTicker symbol])).2 = 1
              intro h
              rw [placeOrderExcept_fst] at h
              obtain rfl : PyErr.valueError = e := Except.error.inj h
              rw [notifyCount_placeOrderExcept _ _ ht]
              simp [notifyCount]
            · simp only []
              by_cases hp : price = 0
              · rw [if_pos hp]
                intro h
                rw [placeOrderExcept_fst] at h
                obtain rfl : PyErr.valueError = e := Except.error.inj h
                rw [notifyCount_placeOrderExcept _ _ ht]
                simp [notifyCount]
              · rw [if_neg hp]
                rcases hb : ex.fetchBalance with eb | free
                · show (placeOrderExcept eb
                      ([Event.setLeverage symbol] ++ [Event.fetchTicker symbol] ++
                        [Event.fetchBalance])).1 = Except.error e →
                    notifyCount "error" (placeOrderExcept eb
                      ([Event.setLeverage symbol] ++ [Event.fetchTicker symbol] ++
                        [Event.fetchBalance])).2 = 1
                  intro h
                  rw [placeOrderExcept_fst] at h
                  obtain rfl : eb = e := Except.error.inj h
                  rw [notifyCount_placeOrderExcept _ _ ht]
                  simp [notifyCount]
                · rcases hco : ex.createOrder with eo | oid
                  · show (placeOrderExcept eo
                        ([Event.setLeverage symbol] ++ [Event.fetchTicker symbol] ++
                          [Event.fetchBalance,
                            Event.createMarketOrder symbol side
                              (free * s.TRADE_ALLOCATION_PERCENT * (s.DEFAULT_LEVERAGE : ℚ) / price)
                              (if truthy tp then tp else none)
                              (if truthy sl then sl else none) false])).1 = Except.error e →
                      notifyCount "error" (placeOrderExcept eo
                        ([Event.setLeverage symbol] ++ [Event.fetchTicker symbol] ++
                          [Event.fetchBalance,
                            Event.createMarketOrder symbol side
                              (free * s.TRADE_ALLOCATION_PERCENT * (s.DEFAULT_LEVERAGE : ℚ) / price)
                              (if truthy tp then tp else none)
                              (if truthy sl then sl else none) false])).2 = 1
                    intro h
                    rw [placeOrderExcept_fst] at h
                    obtain rfl : eo = e := Except.error.inj h
                    rw [notifyCount_placeOrderExcept _ _ ht]
                    simp [notifyCount]
                  · intro h
                    exact absurd h (by simp)

/-- C3: the retry-wrapped place_order makes at most 3 attempts; its sleeps
follow wait_exponential(multiplier=1, min=1, max=10) at the attempt index and
every delay lies within the 1s base and 10s cap; a second attempt happens only
when the first failed with a transient class; and any non-transient failure
(InsufficientFunds, venue rejection) on the first attempt is never retried —
exactly one attempt, exactly one error-level notification, failure surfaced. -/
theorem C3_retry_policy (s : Settings) (symbol side : String) (tp sl : Option ℚ)
    (ex : ℕ → ExchangeBehavior) :
    (place_order symbol side s tp sl ex).attempts ≤ 3 ∧
    (place_order symbol side s tp sl ex).delays =
      (List.range ((place_order symbol side s tp sl ex).attempts - 1)).map
        (fun i => wait_exponential 1 1 10 (i + 1)) ∧
    (∀ d ∈ (place_order symbol side s tp sl ex).delays, 1 ≤ d ∧ d ≤ 10) ∧
    (2 ≤ (place_order symbol side s tp sl ex).attempts →
      ∃ e, (place_order_attempt symbol side s tp sl (ex 1)).1 = Except.error e ∧
        isTransient e = true) ∧
    (∀ e, isTransient e = false →
      (place_order_attempt symbol side s tp sl (ex 1)).1 = Except.error e →
      (place_order symbol side s tp sl ex).attempts = 1 ∧
      (place_order symbol side s tp sl ex).result = RetryOutcome.err e ∧
      notifyCount "error" (place_order symbol side s tp sl ex).events = 1) := by
  rcases hA1 : place_order_attempt symbol side s tp sl (ex 1) with ⟨r1, e1⟩
  cases r1 with
  | ok v =>
    have hrun : place_order symbol side s tp sl ex = ⟨RetryOutcome.ok v, e1, [], 1⟩ := by
      rw [place_order, show (3:ℕ) = 2 + 1 from rfl, retryGo, hA1]
      simp
    refine ⟨by simp [hrun], by rw [hrun]; rfl, by rw [hrun]; intro d hd; simp at hd, ?_, ?_⟩
    · rw [hrun]; intro h2; norm_num at h2
    · intro e _ h
      exact absurd h (by simp)
  | error err1 =>
    cases htr1 : isTransient err1 with
    | false =>
      have hrun : place_order symbol side s tp sl ex =
          ⟨RetryOutcome.err err1, e1, [], 1⟩ := by
        rw [place_order, show (3:ℕ) = 2 + 1 from rfl, retryGo, hA1]
        simp [htr1]
      refine ⟨by simp [hrun], by rw [hrun]; rfl, by rw [hrun]; intro d hd; simp at hd, ?_, ?_⟩
      · rw [hrun]; intro h2; norm_num at h2
      · intro e hte h
        have he : err1 = e := Except.error.inj h
        subst he
        have hn := attempt_error_notifyCount symbol side s tp sl (ex 1) err1 hte
          (by rw [hA1])
        rw [hA1] at hn
        exact ⟨by rw [hrun], by rw [hrun], by rw [hrun]; exact hn⟩
    | true =>
      rcases hA2 : place_order_attempt symbol side s tp sl (ex 2) with ⟨r2, e2⟩
      cases r2 with
      | ok v2 =>
        have hrun : place_order symbol side s tp sl ex =
            ⟨RetryOutcome.ok v2, e1 ++ e2, [wait_exponential 1 1 10 1], 2⟩ := by
          rw [place_order, show (3:ℕ) = 2 + 1 from rfl, retryGo, hA1]
          simp only [htr1, if_true]
          rw [if_neg (by norm_num : ¬ (3:ℕ) ≤ 1)]
          rw [show (2:ℕ) = 1 + 1 from rfl, retryGo, hA2]
          simp
        refine ⟨by simp [hrun], by rw [hrun]; rfl, ?_, ?_, ?_⟩
        · rw [hrun]
          intro d hd
          simp at hd
          subst hd
          exact wait_exponential_bounds 1
        · intro _
          exact ⟨err1, rfl, htr1⟩
        · intro e hte h
          have he : err1 = e := Except.error.inj h
          subst he
          rw [htr1] at hte
          cases hte
      | error err2 =>
        cases htr2 : isTransient err2 with
        | false =>
          have hrun : place_order symbol side s tp sl ex =
              ⟨RetryOutcome.err err2, e1 ++ e2, [wait_exponential 1 1 10 1], 2⟩ := by
            rw [place_order, show (3:ℕ) = 2 + 1 from rfl, retryGo, hA1]
            simp only [htr1, if_true]
            rw [if_neg (by norm_num : ¬ (3:ℕ) ≤ 1)]
            rw [show (2:ℕ) = 1 + 1 from rfl, retryGo, hA2]
            simp [htr2]
          refine ⟨by simp [hrun], by rw [hrun]; rfl, ?_, ?_, ?_⟩
          · rw [hrun]
            intro d hd
            simp at hd
            subst hd
            exact wait_exponential_bounds 1
          · intro _
            exact ⟨err1, rfl, htr1⟩
          · intro e hte h
            have he : err1 = e := Except.error.inj h
            subst he
            rw [htr1] at hte
            cases hte
        | true =>
          rcases hA3 : place_order_attempt symbol side s tp sl (ex 3) with ⟨r3, e3⟩
          have hstep : place_order symbol side s tp sl ex =
              retryGo symbol side s tp sl ex 1 3 (e1 ++ e2)
                [wait_exponential 1 1 10 1, wait_exponential 1 1 10 (1 + 1)] := by
            rw [place_order, show (3:ℕ) = 2 + 1 from rfl, retryGo, hA1]
            simp only [htr1, if_true]
            rw [if_neg (by norm_num : ¬ (3:ℕ) ≤ 1)]
            rw [show (2:ℕ) = 1 + 1 from rfl, retryGo, hA2]
            simp only [htr2, if_true]
            rw [if_neg (by norm_num : ¬ (3:ℕ) ≤ 1 + 1)]
            norm_num
          cases r3 with
          | ok v3 =>
            have hrun : place_order symbol side s tp sl ex =
                ⟨RetryOutcome.ok v3, e1 ++ e2 ++ e3,
                  [wait_exponential 1 1 10 1, wait_exponential 1 1 10 (1 + 1)], 3⟩ := by
              rw [hstep, show (1:ℕ) = 0 + 1 from rfl, retryGo, hA3]
            refine ⟨by simp [hrun], by rw [hrun]; rfl, ?_, ?_, ?_⟩
            · rw [hrun]
              intro d hd
              simp at hd
              rcases hd with rfl | rfl
              · exact wait_exponential_bounds 1
              · exact wait_exponential_bounds 2
            · intro _
              exact ⟨err1, rfl, htr1⟩
            · intro e hte h
              have he : err1 = e := Except.error.inj h
              subst he
              rw [htr1] at hte
              cases hte
          | error err3 =>
            cases htr3 : isTransient err3 with
            | false =>
              have hrun : place_order symbol side s tp sl ex =
                  ⟨RetryOutcome.err err3, e1 ++ e2 ++ e3,
                    [wait_exponential 1 1 10 1, wait_exponential 1 1 10 (1 + 1)], 3⟩ := by
                rw [hstep, show (1:ℕ) = 0 + 1 from rfl, retryGo, hA3]
                simp [htr3]
              refine ⟨by simp [hrun], by rw [hrun]; rfl, ?_, ?_, ?_⟩
              · rw [hrun]
                intro d hd
                simp at hd
                rcases hd with rfl | rfl
                · exact wait_exponential_bounds 1
                · exact wait_exponential_bounds 2
              · intro _
                exact ⟨err1, rfl, htr1⟩
              · intro e hte h
                have he : err1 = e := Except.error.inj h
                subst he
                rw [htr1] at hte
                cases hte
            | true =>
              have hrun : place_order symbol side s tp sl ex =
                  ⟨RetryOutcome.retryError err3, e1 ++ e2 ++ e3,
                    [wait_exponential 1 1 10 1, wait_exponential 1 1 10 (1 + 1)], 3⟩ := by
                rw [hstep, show (1:ℕ) = 0 + 1 from rfl, retryGo, hA3]
                simp [htr3]
              refine ⟨by simp [hrun], by rw [hrun]; rfl, ?_, ?_, ?_⟩
              · rw [hrun]
                intro d hd
                simp at hd
                rcases hd with rfl | rfl
                · exact wait_exponential_bounds 1
                · exact wait_exponential_bounds 2
              · intro _
                exact ⟨err1, rfl, htr1⟩
              · intro e hte h
                have he : err1 = e := Except.error.inj h
                subst he
                rw [htr1] at hte
                cases hte

/-- Witness for C3: a venue that times out is retried at most thrice, and an
InsufficientFunds failure stops after one attempt with one critical
notification. -/
theorem C3_witness :
    (place_order "BTC/USDT" "buy" egSettings none none egExDown).attempts ≤ 3 ∧
    (place_order "BTC/USDT" "buy" egSettings none none egExPoor).attempts = 1 ∧
    (place_order "BTC/USDT" "buy" egSettings none none egExPoor).result =
      RetryOutcome.err PyErr.insufficientFunds ∧
    notifyCount "error" (place_order "BTC/USDT" "buy" egSettings none none egExPoor).events =
      1 := by
  have h := (C3_retry_policy egSettings "BTC/USDT" "buy" none none egExPoor).2.2.2.2
    PyErr.insufficientFunds rfl
    (by norm_num [place_order_attempt, place_order_admitted, egSettings, egExPoor,
      placeOrderExcept])
  exact ⟨(C3_retry_policy egSettings "BTC/USDT" "buy" none none egExDown).1,
    h.1, h.2.1, h.2.2⟩

/-! ## Claim C1, C4, C5 and C7 theorems (kill switch and webhook ordering) -/

/-- C1: the kill switch leaves the gate disabled for every possible venue
outcome (including total failure), its very first recorded effect is the gate
write (before any venue I/O), and every webhook request processed against the
resulting gate is answered with the ignored outcome and triggers no order
execution. -/
theorem C1_kill_switch_gate (s : Settings) (kx : KillExchange) :
    (execute_kill_switch s kx).gate = false ∧
    (execute_kill_switch s kx).events.head? = some (Event.gateSet false) ∧
    (∀ (body : List ℕ) (sig : Option String) (now : ℚ) (parsed : Option SignalData)
      (ex : ℕ → ExchangeBehavior),
      webhook (execute_kill_switch s kx).gate body sig s now parsed ex =
        (WebhookResponse.ignored, [])) :=
  ⟨rfl, rfl, fun _ _ _ _ _ => rfl⟩

/-- The closing loop emits no error-level notifications of its own. -/
theorem closeLoop_no_notify (kx : KillExchange) :
    ∀ l : List Position, notifyCount "error" (closeLoop kx l).2 = 0
  | [] => rfl
  | p :: rest => by
    have ih := closeLoop_no_notify kx rest
    simp only [closeLoop]
    simp [notifyCount] at ih ⊢
    exact ih

/-- Every position given to the closing loop gets a reduce-only market order
in the opposite direction. -/
theorem closeLoop_mem (kx : KillExchange) :
    ∀ l : List Position, ∀ p ∈ l,
      Event.createMarketOrder p.symbol (if p.side = "long" then "sell" else "buy")
        p.contracts none none true ∈ (closeLoop kx l).2
  | [], p, hp => absurd hp (by simp)
  | q :: rest, p, hp => by
    simp only [closeLoop]
    rcases List.mem_cons.mp hp with rfl | hmem
    · exact List.mem_cons_self _ _
    · exact List.mem_cons_of_mem _ (closeLoop_mem kx rest p hmem)

/-- C4 as amended: once the client is constructed and the positions fetch
succeeds, the sweep never raises — cancel and per-position close failures are
absorbed, exactly one aggregate error-level notification is emitted and every
active position receives a reduce-only close order; a client-construction
failure is raised after a best-effort failure notification. The positions
fetch itself is not fault-tolerant (see the counterexample). -/
theorem C4_kill_fault_tolerance (s : Settings) (kx : KillExchange) (ps : List Position)
    (e : PyErr) :
    (kx.construct = Except.ok () → kx.fetchPositions = Except.ok ps →
      (∃ log, (emergency_kill_switch s kx).1 = Except.ok log) ∧
      notifyCount "error" (emergency_kill_switch s kx).2 = 1 ∧
      ∀ p ∈ ps.filter (fun p => 0 < p.contracts),
        Event.createMarketOrder p.symbol (if p.side = "long" then "sell" else "buy")
          p.contracts none none true ∈ (emergency_kill_switch s kx).2) ∧
    (kx.construct = Except.error e →
      (emergency_kill_switch s kx).1 = Except.error e ∧
      notifyCount "error" (emergency_kill_switch s kx).2 = 1) := by
  constructor
  · intro hc hf
    rw [emergency_kill_switch, hc, hf]
    refine ⟨⟨_, rfl⟩, ?_, ?_⟩
    · rw [notifyCount_append, notifyCount_append, closeLoop_no_notify]
      simp [notifyCount]
    · intro p hp
      have h := closeLoop_mem kx (ps.filter (fun p => 0 < p.contracts)) p hp
      simp only [List.mem_append]
      exact Or.inl (Or.inr h)
  · intro hc
    rw [emergency_kill_switch, hc]
    exact ⟨rfl, by simp [notifyCount]⟩

/-- Counterexample to C4 as stated: a fetch_positions failure aborts the
remaining steps — the error is raised to the caller, no position close is
attempted, and no aggregate summary notification is emitted (only the failure
notification). -/
theorem C4_counterexample :
    emergency_kill_switch egSettings egKxFetchFail =
      (Except.error PyErr.networkError,
        [Event.cancelAllOrders, Event.fetchPositions,
          Event.notify "error" "kill_failed"]) := rfl

/-- Witness for C4: with a failing cancel and one failing close out of two
positions, the sweep still returns its log and emits one aggregate
notification. -/
theorem C4_witness :
    (∃ log, (emergency_kill_switch egSettings egKxMessy).1 = Except.ok log) ∧
    notifyCount "error" (emergency_kill_switch egSettings egKxMessy).2 = 1 :=
  ⟨((C4_kill_fault_tolerance egSettings egKxMessy
      [⟨"ETH/USDT", "long", 2⟩, ⟨"BTC/USDT", "short", 1⟩] PyErr.networkError).1 rfl rfl).1,
   ((C4_kill_fault_tolerance egSettings egKxMessy
      [⟨"ETH/USDT", "long", 2⟩, ⟨"BTC/USDT", "short", 1⟩] PyErr.networkError).1 rfl rfl).2.1⟩

/-- Counterexample to C7 as stated: with the gate disabled, a request with no
signature at all receives the accepted-but-ignored outcome, not the silent
drop — the gate is checked before signature verification. -/
theorem C7_counterexample :
    webhook false (strBytes "no-signature-at-all") none egSettings 0 none egEx =
      (WebhookResponse.ignored, []) := rfl

/-- C7 as amended: the Trading Gate is consulted before signature
verification — a disabled gate answers every request (signed or not) with the
ignored outcome; when the gate is enabled, a request whose signature fails
verification is answered with the silent drop and none of the later intake
checks run (the response is independent of the parsed payload). -/
theorem C7_gate_checked_first (body : List ℕ) (sig : Option String) (s : Settings)
    (now : ℚ) (parsed : Option SignalData) (ex : ℕ → ExchangeBehavior) :
    webhook false body sig s now parsed ex = (WebhookResponse.ignored, []) ∧
    (verify_hmac_signature body sig s = Except.ok false →
      webhook true body sig s now parsed ex = (WebhookResponse.emptyOk, [])) := by
  constructor
  · rfl
  · intro h
    rw [webhook.eq_def, if_neg (by simp), h]

/-- Witness for C7: an enabled gate and a wrong signature produce the silent
drop with no side effects. -/
theorem C7_witness :
    webhook true egBody (some "deadbeef") egSettings 100 (some egParsed) egEx =
      (WebhookResponse.emptyOk, []) :=
  (C7_gate_checked_first egBody (some "deadbeef") egSettings 100 (some egParsed) egEx).2
    (by decide)

/-- C5 as amended: a validly signed, parseable, non-heartbeat signal whose
timestamp is present, nonzero and more than 60 seconds old is dropped with the
silent empty response and no order is submitted; an absent timestamp disables
the freshness check (the response does not depend on the evaluation time). A
zero timestamp is falsy in Python and skips the check (see the
counterexample). -/
theorem C5_staleness (s : Settings) (body : List ℕ) (sig : Option String)
    (now now2 : ℚ) (d : SignalData) (t : ℚ) (ex : ℕ → ExchangeBehavior)
    (hv : verify_hmac_signature body sig s = Except.ok true) :
    (d.dust = false → d.timestamp = some t → t ≠ 0 → now - t > 60 →
      webhook true body sig s now (some d) ex = (WebhookResponse.emptyOk, [])) ∧
    (d.timestamp = none →
      webhook true body sig s now (some d) ex = webhook true body sig s now2 (some d) ex) := by
  constructor
  · intro hdust hts hne hgt
    have hcond : truthy d.timestamp = true ∧ now - d.timestamp.getD 0 > 60 := by
      rw [hts]
      exact ⟨by simp [truthy, hne], by simpa using hgt⟩
    rw [webhook.eq_def, if_neg (by simp), hv]
    simp only []
    rw [hdust]
    simp only [Bool.false_eq_true, if_false]
    rw [if_pos hcond]
  · intro hts
    have hc : ∀ n : ℚ, ¬(truthy d.timestamp = true ∧ n - d.timestamp.getD 0 > 60) := by
      intro n
      rw [hts]
      simp [truthy]
    have key : ∀ n : ℚ, webhook true body sig s n (some d) ex =
        (if d.dust then (WebhookResponse.okStatus, ([] : List Event))
          else webhook_trading d s ex) := by
      intro n
      rw [webhook.eq_def, if_neg (by simp), hv]
      simp only []
      cases hd : d.dust with
      | false =>
        simp only [Bool.false_eq_true, if_false]
        rw [if_neg (hc n)]
      | true => simp
    rw [key now, key now2]

/-- Counterexample to C5 as stated: a validly signed payload carrying
timestamp 0 — present and 100 seconds old at evaluation time 100 — is not
dropped: the webhook executes it and submits an order. -/
theorem C5_counterexample :
    (webhook true egBody (some (hmacSha256hex (strBytes "test-secret") egBody)) egSettings 100
        (some egParsed) egEx).1 = WebhookResponse.okStatus ∧
    orderAmounts (webhook true egBody
        (some (hmacSha256hex (strBytes "test-secret") egBody)) egSettings 100
        (some egParsed) egEx).2 = [1/100] := by
  have hv : verify_hmac_signature egBody
      (some (hmacSha256hex (strBytes "test-secret") egBody)) egSettings = Except.ok true :=
    (verify_ok_true_iff egBody _ egSettings).mpr rfl
  have hA1 : place_order_attempt "BTC/USDT" "buy" egSettings none none (egEx 1) =
      (Except.ok (some ⟨"123"⟩),
        [Event.setLeverage "BTC/USDT", Event.fetchTicker "BTC/USDT", Event.fetchBalance,
          Event.createMarketOrder "BTC/USDT" "buy" (1/100) none none false,
          Event.notify "success" "trade_executed"]) := by
    norm_num [place_order_attempt, place_order_admitted, egSettings, egEx, truthy]
  have hrun : place_order "BTC/USDT" "buy" egSettings none none egEx =
      ⟨RetryOutcome.ok (some ⟨"123"⟩),
        [Event.setLeverage "BTC/USDT", Event.fetchTicker "BTC/USDT", Event.fetchBalance,
          Event.createMarketOrder "BTC/USDT" "buy" (1/100) none none false,
          Event.notify "success" "trade_executed"], [], 1⟩ := by
    rw [place_order, show (3:ℕ) = 2 + 1 from rfl, retryGo, hA1]
    simp
  have hw : webhook true egBody (some (hmacSha256hex (strBytes "test-secret") egBody))
      egSettings 100 (some egParsed) egEx =
      (WebhookResponse.okStatus,
        [Event.setLeverage "BTC/USDT", Event.fetchTicker "BTC/USDT", Event.fetchBalance,
          Event.createMarketOrder "BTC/USDT" "buy" (1/100) none none false,
          Event.notify "success" "trade_executed"]) := by
    rw [webhook.eq_def, if_neg (by simp), hv]
    simp only [egParsed]
    rw [if_neg (by norm_num)]
    rw [if_neg (by norm_num [truthy])]
    rw [webhook_trading.eq_def]
    simp only []
    rw [hrun]
  rw [hw]
  norm_num [orderAmounts, List.filterMap_cons]

/-- Witness for C5: a signed signal with timestamp 30 evaluated at time 100
is dropped silently. -/
theorem C5_witness :
    webhook true egBodyStale (some (hmacSha256hex (strBytes "test-secret") egBodyStale))
      egSettings 100 (some egParsedStale) egEx = (WebhookResponse.emptyOk, []) :=
  (C5_staleness egSettings egBodyStale
      (some (hmacSha256hex (strBytes "test-secret") egBodyStale)) 100 0 egParsedStale 30 egEx
      ((verify_ok_true_iff egBodyStale _ egSettings).mpr rfl)).1
    rfl rfl (by norm_num) (by norm_num)

end AlphaGate
